import Mathlib

/-!
Shallow embedding of the `lsvd` log-structured virtual disk (Go sources
`object.go` and `disk.go`) together with proofs about the claims of its
specification.  Pure byte-level functions are embedded as Lean functions on
`List Nat` (byte lists); external effects (LZ4 compression, object-store
reads, file creation) are abstracted as explicit parameters or outcome
values, so the embedded control flow mirrors the Go control flow.
-/

namespace Lsvd

/-- `BlockSize = 4 * 1024` from disk.go. -/
def BlockSize : Nat := 4 * 1024

/-- Flag value for an uncompressed block (spec §3: `Uncompressed=0`). -/
def Uncompressed : Nat := 0

/-- Flag value for an LZ4-compressed block (spec §3: `Compressed=1`). -/
def Compressed : Nat := 1

/-- Flag value for an all-zero block (spec §3: `Empty=2`). -/
def Empty : Nat := 2

/-- `emptyBlock`: the all-zero 4 KiB block compared against in `emptyBytes`. -/
def emptyBlock : List Nat := List.replicate BlockSize 0

/-- `emptyBytes` from object.go: `bytes.Equal(b, emptyBlock)`. -/
def emptyBytes (b : List Nat) : Bool := b = emptyBlock

/-- `ocBlock` from object.go: one per-block record held by the creator. -/
structure OcBlock where
  lba : Nat
  flags : Nat
  size : Nat
  offset : Nat
  deriving Repr, DecidableEq

/-- `ObjectCreator` state from object.go (the scratch `buf` is modelled as
the capacity passed to the compressor; `header` only lives inside `Flush`). -/
structure ObjectCreator where
  cnt : Nat
  offset : Nat
  blocks : List OcBlock
  body : List Nat
  deriving Repr, DecidableEq

/-- The zero-value `ObjectCreator`, which is also the state after `Reset`. -/
def emptyOC : ObjectCreator := ⟨0, 0, [], []⟩

/-- One iteration of the loop body of `ObjectCreator.WriteExtent`
(object.go lines 39–81) for the block `blk` at logical address `lba`.
`compress` abstracts `lz4.CompressBlock` into the `2*BlockSize` scratch
buffer: it receives the block and the scratch capacity and returns the
compressed bytes (an empty result models `sz == 0`, i.e. incompressible). -/
def writeBlock (compress : List Nat → Nat → List Nat)
    (o : ObjectCreator) (lba : Nat) (blk : List Nat) : ObjectCreator :=
  if emptyBytes blk then
    { o with
      cnt := o.cnt + 1
      blocks := o.blocks ++ [⟨lba, Empty, 0, 0⟩] }
  else
    let comp := compress blk (2 * BlockSize)
    let sz := comp.length
    let body := if 0 < sz ∧ sz < BlockSize then comp else blk
    let flags := if 0 < sz ∧ sz < BlockSize then Compressed else Uncompressed
    { o with
      cnt := o.cnt + 1
      body := o.body ++ body
      blocks := o.blocks ++ [⟨lba, flags, body.length, o.offset⟩]
      offset := o.offset + body.length }

/-- `ObjectCreator.WriteExtent` from object.go: iterate `writeBlock` over the
blocks of the extent, with consecutive logical addresses starting at
`firstBlock`.  The extent's data is the list of its 4 KiB block views. -/
def WriteExtent (compress : List Nat → Nat → List Nat)
    (o : ObjectCreator) (firstBlock : Nat) : List (List Nat) → ObjectCreator
  | [] => o
  | blk :: rest =>
    WriteExtent compress (writeBlock compress o firstBlock blk) (firstBlock + 1) rest

/-- `ObjectCreator.Reset` from object.go: clear blocks, counters and buffers. -/
def Reset (_o : ObjectCreator) : ObjectCreator := emptyOC

/-- Go `binary.PutUvarint`, written with structural fuel so the kernel can
evaluate it; `fuel ≥ n` always suffices because `n / 128 < n` for
`n ≥ 128`. -/
def putUvarintAux (fuel n : Nat) : List Nat :=
  match fuel with
  | 0 => [n % 128]
  | fuel + 1 => if n < 128 then [n] else (n % 128 + 128) :: putUvarintAux fuel (n / 128)

/-- Go `binary.PutUvarint`: little-endian base-128 varint encoding. -/
def putUvarint (n : Nat) : List Nat := putUvarintAux n n

/-- Go `binary.BigEndian.PutUint32`: the four big-endian bytes of
`n mod 2^32`. -/
def be32 (n : Nat) : List Nat :=
  [n / 2 ^ 24 % 256, n / 2 ^ 16 % 256, n / 2 ^ 8 % 256, n % 256]

/-- The header record written for one block by `ObjectCreator.Flush`
(object.go lines 99–124): `varint lba`, a raw flags byte, `varint size`,
`varint offset`. -/
def headerRecord (blk : OcBlock) : List Nat :=
  putUvarint blk.lba ++ [blk.flags] ++ putUvarint blk.size ++ putUvarint blk.offset

/-- All header records of a flush, concatenated in block order. -/
def flushHeader (blocks : List OcBlock) : List Nat :=
  (blocks.map headerRecord).flatten

/-- `dataBegin` from object.go line 126: `uint32(o.header.Len() + 8)`. -/
def flushDataBegin (o : ObjectCreator) : Nat :=
  ((flushHeader o.blocks).length + 8) % 2 ^ 32

/-- `objPBA` value installed into the treemap by `Flush` (object.go
lines 129–136). -/
structure ObjPBA where
  segment : Nat
  offset : Nat
  flags : Nat
  size : Nat
  deriving Repr, DecidableEq

/-- The map entries installed by `Flush` for segment `seg`: for each block,
key `lba` and value whose offset is `dataBegin + uint32(blk.offset)` in
32-bit arithmetic. -/
def flushEntries (o : ObjectCreator) (seg : Nat) : List (Nat × ObjPBA) :=
  o.blocks.map fun blk =>
    (blk.lba,
     ⟨seg, (flushDataBegin o + blk.offset % 2 ^ 32) % 2 ^ 32, blk.flags, blk.size % 2 ^ 32⟩)

/-- The bytes `Flush` writes to the output file (object.go lines 147–167):
big-endian `uint32(cnt)`, big-endian `dataBegin`, the header records, then
the body. -/
def flushFile (o : ObjectCreator) : List Nat :=
  be32 o.cnt ++ be32 (flushDataBegin o) ++ flushHeader o.blocks ++ o.body

/-- Modelled from the spec: the §6 on-disk layout of a segment object —
`u32 BE entry_count`, `u32 BE data_begin = 8 + sizeof(header records)`,
the header records (`varint lba`, `u8 flags`, `varint size`,
`varint offset` per entry), then the body bytes. -/
def segmentLayoutSpec (entries : List OcBlock) (body : List Nat) : List Nat :=
  let records :=
    (entries.map fun e =>
      putUvarint e.lba ++ [e.flags] ++ putUvarint e.size ++ putUvarint e.offset).flatten
  be32 entries.length ++ be32 (8 + records.length) ++ records ++ body

/-- Apply a list of `(key, value)` insertions to a map, in order; later
insertions for the same key overwrite earlier ones (treemap `Set`). -/
def mapInsertAll (m : Nat → Option ObjPBA) : List (Nat × ObjPBA) → Nat → Option ObjPBA
  | [] => m
  | e :: rest => mapInsertAll (fun k => if k = e.1 then some e.2 else m k) rest

/-- Failure injection for the I/O done by `Flush`: `ok` (everything
succeeds), `createFail` (`os.Create` errors), `writeFail` (a write or copy
to the file errors). -/
inductive FlushOutcome
  | ok
  | createFail
  | writeFail
  deriving Repr, DecidableEq

/-- `ObjectCreator.Flush` from object.go, as a transition on the creator
state and the supplied treemap.  The header is serialized, all map entries
are installed (lines 128–138) before the file is created (line 140), the
file bytes are emitted, and `defer o.Reset()` clears the creator state on
every path, error or not. -/
def Flush (o : ObjectCreator) (seg : Nat) (m : Nat → Option ObjPBA)
    (io : FlushOutcome) :
    ObjectCreator × (Nat → Option ObjPBA) × Except String (List Nat) :=
  let m2 := mapInsertAll m (flushEntries o seg)
  match io with
  | .ok => (Reset o, m2, Except.ok (flushFile o))
  | .createFail => (Reset o, m2, Except.error "create failed")
  | .writeFail => (Reset o, m2, Except.error "write failed")

/-! ## Read path: `Disk.readPartialExtent` (disk.go lines 375–496) -/

/-- The fields of a `PartialExtent` / `ExtentHeader` that the fetch and
decode phase of `readPartialExtent` consults. -/
structure PE where
  flags : Nat
  size : Nat
  rawSize : Nat
  deriving Repr, DecidableEq

/-- The flags dispatch of `readPartialExtent` (disk.go lines 423–441) on the
fetched bytes `rawData`.  `uncompress` abstracts `lz4decode.UncompressBlock`
into a destination buffer of the given size: `none` models a decompression
error, `some (n, out)` models success with `n` decoded bytes. -/
def processFlags (uncompress : List Nat → Nat → Option (Nat × List Nat))
    (pe : PE) (rawData : List Nat) : Except String (List Nat) :=
  if pe.flags = Compressed then
    match uncompress rawData pe.rawSize with
    | none => Except.error "error uncompressing data"
    | some (n, uncomp) =>
      if n ≠ pe.rawSize then Except.error "failed to uncompress correctly"
      else Except.ok uncomp
  else if pe.flags ≠ Uncompressed then
    Except.error "unknown flags value"
  else
    Except.ok rawData

/-- The fetch-and-decode phase of `Disk.readPartialExtent` (disk.go lines
382–441), ending with the cooked bytes handed to the copy loop.
`found`/`cacheData` model the extent-cache lookup (a cache read error is
only logged); on a miss, `readErr`, `readN` and `readData` model the
outcome of `ci.ReadAt(rawData, addr.Offset)` into a buffer of `pe.size`
bytes.  `ok none` is the source's early `return nil` when `ReadAt` errors:
the caller sees success with nothing copied. -/
def readPartialExtentCore (uncompress : List Nat → Nat → Option (Nat × List Nat))
    (pe : PE) (found : Bool) (cacheData : List Nat)
    (readErr : Bool) (readN : Nat) (readData : List Nat) :
    Except String (Option (List Nat)) :=
  if found then
    (processFlags uncompress pe cacheData).map some
  else if readErr then
    Except.ok none
  else if readN ≠ pe.size then
    Except.error "short read detected"
  else
    (processFlags uncompress pe readData).map some

/-! ## `S3ObjectReader.ReadAt` (disk.go lines 800–822) -/

/-- `S3ObjectReader.ReadAt`.  `getErr` models `GetObject` failing;
otherwise `readFullN` and `readFullErr` model the result of
`io.ReadFull(r.Body, dest)`.  Returns the Go `(n, err)` pair with the error
as a `Bool`. -/
def s3ReadAt (getErr : Bool) (readFullN : Nat) (readFullErr : Bool) :
    Nat × Bool :=
  if getErr then (0, true)
  else if readFullErr then
    if readFullN > 0 then (readFullN, false)
    else (readFullN, true)
  else (readFullN, false)

/-! ## `S3Access.RemoveSegmentFromVolume` (disk.go lines 1003–1025) -/

/-- A `SegmentId` is a 16-byte ULID; modelled as its byte list. -/
abbrev SegmentId := List Nat

/-- The zero `SegmentId` (all 16 bytes zero), the Go zero value. -/
def zeroSegment : SegmentId := List.replicate 16 0

/-- Go `slices.DeleteFunc(s, del)` as it leaves the ORIGINAL slice variable
when the return value is discarded: kept elements are moved to the front,
the length is unchanged, and the tail is zeroed. -/
def goDeleteFuncInPlace (del : SegmentId → Bool) (xs : List SegmentId) :
    List SegmentId :=
  let kept := xs.filter fun x => ¬ del x
  kept ++ List.replicate (xs.length - kept.length) zeroSegment

/-- `S3Access.RemoveSegmentFromVolume`: list the volume's segments, call
`slices.DeleteFunc` WITHOUT retaining its result (disk.go line 1009), then
re-upload the concatenated 16-byte ids of the (unchanged-length) slice as
the new volume object index. -/
def RemoveSegmentFromVolume (segments : List SegmentId) (seg : SegmentId) :
    List Nat :=
  let segments2 := goDeleteFuncInPlace (fun si => decide (si = seg)) segments
  (segments2.map fun s => s).flatten

/-- What the spec says the call should upload: the previous list with every
occurrence of `seg` removed, concatenated. Modelled from the spec:
`RemoveSegmentFromVolume(vol, seg)` — remove from index. -/
def removeSegmentSpec (segments : List SegmentId) (seg : SegmentId) :
    List Nat :=
  ((segments.filter fun si => ¬ decide (si = seg)).map fun s => s).flatten

/-! ## `NewDisk` volume lookup (disk.go lines 59–93) -/

/-- `VolumeInfo` as used by `NewDisk`: a name and a size. -/
structure VolumeInfo where
  name : String
  size : Int
  deriving Repr, DecidableEq

/-- The options record built by `NewDisk`; only the field the claim needs. -/
structure DiskOpts where
  autoCreate : Bool
  deriving Repr, DecidableEq

/-- `NewDisk` seeds the options with `o.autoCreate = true` before applying
the caller's options (disk.go line 60). -/
def defaultOpts : DiskOpts := ⟨true⟩

/-- Apply caller options to the defaults, as the loop at disk.go line 62. -/
def applyOpts (options : List (DiskOpts → DiskOpts)) : DiskOpts :=
  options.foldl (fun o opt => opt o) defaultOpts

/-- The volume-lookup step of `NewDisk` (disk.go lines 79–93).  `gvi` is the
result of `GetVolumeInfo` (`none` models the call returning an error),
`initOk` the outcome of `InitVolume`.  Returns the resulting size (or the
error), paired with whether `InitVolume` was called. -/
def newDiskVolumeStep (autoCreate : Bool) (gvi : Option VolumeInfo)
    (initOk : Bool) : Except String Int × Bool :=
  match gvi with
  | some vi =>
    if vi.name = "" then
      if ¬ autoCreate then (Except.error "unknown volume", false)
      else if initOk then (Except.ok 0, true)
      else (Except.error "init volume failed", true)
    else
      (Except.ok vi.size, false)
  | none =>
    if ¬ autoCreate then (Except.error "unknown volume", false)
    else if initOk then (Except.ok 0, true)
    else (Except.error "init volume failed", true)

/-! ## Background flush task: `closeSegmentAsync` (disk.go lines 643–727) -/

/-- Observable events of the background goroutine spawned by
`closeSegmentAsync`. -/
inductive BgEvent
  | flushFail
  | sleep5
  | flushOk
  | createSeg
  | updateBatch
  | clearPrev
  deriving Repr, DecidableEq

/-- The retry loop and install sequence of the goroutine in
`closeSegmentAsync` (disk.go lines 671–702), as the trace of events it
produces.  `attempts` gives the outcome of each successive `oc.Flush` call
(`false` = error).  On error the goroutine logs, sleeps 5 seconds and
retries; on the first success it breaks out and runs `d.s.Create`,
`d.lba2pba.UpdateBatch` and `d.prevCache.Clear()` in that order. -/
def bgTrace : List Bool → List BgEvent
  | [] => []
  | false :: rest => BgEvent.flushFail :: BgEvent.sleep5 :: bgTrace rest
  | true :: _ =>
    [BgEvent.flushOk, BgEvent.createSeg, BgEvent.updateBatch, BgEvent.clearPrev]

/-- The fail/sleep prefix produced by `k` failed flush attempts. -/
def failPrefix : Nat → List BgEvent
  | 0 => []
  | k + 1 => BgEvent.flushFail :: BgEvent.sleep5 :: failPrefix k

/-! ## Creator-state invariant (claim about `WriteExtent`/`Reset`) -/

/-- Structural invariant of an `ObjectCreator`: the count matches the block
list, the running offset matches the body length, every non-`Empty` block's
`[offset, offset+size)` range lies within the body with `size ≤ BlockSize`,
and `Empty` blocks have `size = 0`. -/
def creatorInv (o : ObjectCreator) : Prop :=
  o.cnt = o.blocks.length ∧
  o.offset = o.body.length ∧
  ∀ blk ∈ o.blocks,
    (blk.flags ≠ Empty → blk.offset + blk.size ≤ o.body.length ∧ blk.size ≤ BlockSize) ∧
    (blk.flags = Empty → blk.size = 0)

/-- Creator states reachable by any sequence of `WriteExtent` and `Reset`
calls from the zero state.  Each `WriteExtent` receives 4 KiB block views
(`ext.BlockView i` always has `BlockSize` bytes) and may use any
compressor. -/
inductive Reach : ObjectCreator → Prop
  | init : Reach emptyOC
  | write (o : ObjectCreator) (compress : List Nat → Nat → List Nat)
      (fb : Nat) (ext : List (List Nat))
      (hb : ∀ b ∈ ext, b.length = BlockSize) :
      Reach o → Reach (WriteExtent compress o fb ext)
  | reset (o : ObjectCreator) : Reach o → Reach (Reset o)

/-! ## Theorems -/

/-- Claim C1 (divergence witnessed in the code): when the segment reader's
`ReadAt` returns an error on a cache miss, `readPartialExtent` takes the
`return nil` branch at disk.go line 412 — the modelled fetch phase yields
`Except.ok none` (success with nothing copied into the destination), not an
error as the claim requires; a short read, by contrast, does surface the
"short read detected" error. -/
theorem readPartialExtent_readAtError_silent :
    readPartialExtentCore (fun _ _ => none) ⟨Compressed, 10, BlockSize⟩ false [] true 0 [] =
      Except.ok none ∧
    readPartialExtentCore (fun _ _ => none) ⟨Compressed, 10, BlockSize⟩ false [] false 5 [] =
      Except.error "short read detected" := by
  exact ⟨rfl, rfl⟩

/-- Claim C2 (divergence witnessed in the code): `RemoveSegmentFromVolume`
discards the result of `slices.DeleteFunc`, so on the index `[a, seg]` it
re-uploads the 32 bytes `a ++ 16 zero bytes` instead of the 16 bytes `a`
that removing `seg` should leave. -/
theorem removeSegmentFromVolume_bug :
    RemoveSegmentFromVolume [List.replicate 16 1, List.replicate 16 3]
        (List.replicate 16 3) =
      List.replicate 16 1 ++ List.replicate 16 0 ∧
    removeSegmentSpec [List.replicate 16 1, List.replicate 16 3]
        (List.replicate 16 3) =
      List.replicate 16 1 ∧
    RemoveSegmentFromVolume [List.replicate 16 1, List.replicate 16 3]
        (List.replicate 16 3) ≠
      removeSegmentSpec [List.replicate 16 1, List.replicate 16 3]
        (List.replicate 16 3) := by
  refine ⟨by decide, by decide, by decide⟩

/-- Claim C8: `Flush` ends with the creator state reset to empty on every
path (the `defer o.Reset()`), installs every block's entry into the
supplied treemap before the output file is even created (so the map update
does not depend on the file I/O outcome), and returns an error exactly when
the file I/O fails. -/
theorem flush_resets_state_and_preinstalls_map (o : ObjectCreator) (seg : Nat)
    (m : Nat → Option ObjPBA) (io : FlushOutcome) :
    (Flush o seg m io).1 = emptyOC ∧
    (Flush o seg m io).2.1 = mapInsertAll m (flushEntries o seg) ∧
    (∀ io2, (Flush o seg m io).2.1 = (Flush o seg m io2).2.1) ∧
    ((Flush o seg m io).2.2 = Except.ok (flushFile o) ↔ io = FlushOutcome.ok) := by
  cases io <;> refine ⟨rfl, rfl, fun io2 => by cases io2 <;> rfl, by simp [Flush, Reset]⟩

/-- Claim C9: `S3ObjectReader.ReadAt` swallows a body-read error when at
least one byte was delivered, returning `(n, nil)`; an error reaches the
caller only with a zero byte count. -/
theorem s3ReadAt_partial_body_read (n : Nat) (rfErr : Bool) :
    (rfErr = true → 0 < n → s3ReadAt false n rfErr = (n, false)) ∧
    (∀ gErr : Bool, (s3ReadAt gErr n rfErr).2 = true → (s3ReadAt gErr n rfErr).1 = 0) := by
  constructor
  · intro hrf hn
    simp [s3ReadAt, hrf, hn]
  · intro gErr
    cases gErr
    · cases rfErr
      · simp [s3ReadAt]
      · rcases Nat.eq_zero_or_pos n with hn | hn
        · simp [s3ReadAt, hn]
        · simp [s3ReadAt, hn]
    · simp [s3ReadAt]

/-- Witness for claim C9 at a concrete input: five bytes read before the
body error yields `(5, nil)`. -/
theorem s3ReadAt_partial_body_read_witness :
    s3ReadAt false 5 true = (5, false) :=
  (s3ReadAt_partial_body_read 5 true).1 rfl (by norm_num)

/-- Claim C7: when `GetVolumeInfo` errors or reports an empty name,
`NewDisk` with `autoCreate=false` fails with the unknown-volume error and
never calls `InitVolume`; with the default options (`autoCreate = true`)
the missing volume is created via `InitVolume` instead. -/
theorem newDisk_unknown_volume (gvi : Option VolumeInfo) (initOk : Bool)
    (habsent : gvi = none ∨ ∃ vi, gvi = some vi ∧ vi.name = "") :
    newDiskVolumeStep false gvi initOk = (Except.error "unknown volume", false) ∧
    defaultOpts.autoCreate = true ∧
    (initOk = true →
      newDiskVolumeStep defaultOpts.autoCreate gvi initOk = (Except.ok 0, true)) := by
  rcases habsent with rfl | ⟨vi, rfl, hname⟩
  · exact ⟨rfl, rfl, fun hio => by simp [newDiskVolumeStep, defaultOpts, hio]⟩
  · exact ⟨by simp [newDiskVolumeStep, hname],
      rfl,
      fun hio => by simp [newDiskVolumeStep, defaultOpts, hname, hio]⟩

/-- Witness for claim C7 at a concrete input: `GetVolumeInfo` erroring. -/
theorem newDisk_unknown_volume_witness :
    newDiskVolumeStep false none true = (Except.error "unknown volume", false) ∧
    newDiskVolumeStep defaultOpts.autoCreate none true = (Except.ok 0, true) := by
  obtain ⟨h1, _, h3⟩ := newDisk_unknown_volume none true (Or.inl rfl)
  exact ⟨h1, h3 rfl⟩

/-- Claim C4: per 4 KiB block, `ObjectCreator.WriteExtent` records an
all-zero block with `flags = Empty`, size 0 and no body bytes; otherwise it
attempts LZ4 compression into the `2*BlockSize` scratch and, when the
compressed size satisfies `0 < csize < BlockSize`, appends the `csize`
compressed bytes with `flags = Compressed`, else appends the raw
`BlockSize` bytes with `flags = Uncompressed`. -/
theorem writeExtent_per_block (compress : List Nat → Nat → List Nat)
    (o : ObjectCreator) (lba : Nat) (blk : List Nat)
    (hlen : blk.length = BlockSize) :
    (blk = emptyBlock →
      writeBlock compress o lba blk =
        { o with cnt := o.cnt + 1, blocks := o.blocks ++ [⟨lba, Empty, 0, 0⟩] }) ∧
    (blk ≠ emptyBlock → 0 < (compress blk (2 * BlockSize)).length →
      (compress blk (2 * BlockSize)).length < BlockSize →
      writeBlock compress o lba blk =
        { cnt := o.cnt + 1
          offset := o.offset + (compress blk (2 * BlockSize)).length
          blocks := o.blocks ++
            [⟨lba, Compressed, (compress blk (2 * BlockSize)).length, o.offset⟩]
          body := o.body ++ compress blk (2 * BlockSize) }) ∧
    (blk ≠ emptyBlock →
      ¬ (0 < (compress blk (2 * BlockSize)).length ∧
         (compress blk (2 * BlockSize)).length < BlockSize) →
      writeBlock compress o lba blk =
        { cnt := o.cnt + 1
          offset := o.offset + BlockSize
          blocks := o.blocks ++ [⟨lba, Uncompressed, BlockSize, o.offset⟩]
          body := o.body ++ blk }) := by
  refine ⟨?_, ?_, ?_⟩
  · intro he
    simp [writeBlock, emptyBytes, he]
  · intro he h1 h2
    have hne : emptyBytes blk = false := by simp [emptyBytes, he]
    simp [writeBlock, hne, h1, h2]
  · intro he hc
    have hne : emptyBytes blk = false := by simp [emptyBytes, he]
    simp [writeBlock, hne, hc, hlen]

/-- Witness for claim C4 at a concrete input: a non-zero block whose
compression yields two bytes is appended compressed. -/
theorem writeExtent_per_block_witness :
    writeBlock (fun _ _ => [1, 2]) emptyOC 5 (List.replicate BlockSize 1) =
      { cnt := 1, offset := 2, blocks := [⟨5, Compressed, 2, 0⟩], body := [1, 2] } := by
  have h := (writeExtent_per_block (fun _ _ => [1, 2]) emptyOC 5
      (List.replicate BlockSize 1) (by simp)).2.1 (by decide) (by decide) (by decide)
  simpa [emptyOC] using h

/-- Claim C6: on the fetched bytes, `readPartialExtent` with
`flags = Compressed` decompresses into a `pe.RawSize`-byte buffer and
errors when decompression fails or the decoded count differs from
`pe.RawSize`; any flags value other than `Compressed` or `Uncompressed` is
also an error. -/
theorem readPartialExtent_decode_checks
    (uncompress : List Nat → Nat → Option (Nat × List Nat))
    (pe : PE) (raw : List Nat) :
    (pe.flags = Compressed → uncompress raw pe.rawSize = none →
      readPartialExtentCore uncompress pe false [] false pe.size raw =
        Except.error "error uncompressing data") ∧
    (∀ n out, pe.flags = Compressed → uncompress raw pe.rawSize = some (n, out) →
      n ≠ pe.rawSize →
      readPartialExtentCore uncompress pe false [] false pe.size raw =
        Except.error "failed to uncompress correctly") ∧
    (pe.flags ≠ Compressed → pe.flags ≠ Uncompressed →
      readPartialExtentCore uncompress pe false [] false pe.size raw =
        Except.error "unknown flags value") := by
  refine ⟨?_, ?_, ?_⟩
  · intro hf hu
    simp [readPartialExtentCore, processFlags, hf, hu, Except.map]
  · intro n out hf hu hn
    simp [readPartialExtentCore, processFlags, hf, hu, hn, Except.map]
  · intro hf hu
    simp [readPartialExtentCore, processFlags, hf, hu, Except.map]

/-- Witness for claim C6 at concrete inputs: a failing decompressor, a
decoded-size mismatch, and an unknown flags value all error. -/
theorem readPartialExtent_decode_checks_witness :
    readPartialExtentCore (fun _ _ => none) ⟨Compressed, 3, 8⟩ false [] false 3 [1, 2] =
      Except.error "error uncompressing data" ∧
    readPartialExtentCore (fun _ _ => some (7, [])) ⟨Compressed, 3, 8⟩ false [] false 3 [1, 2] =
      Except.error "failed to uncompress correctly" ∧
    readPartialExtentCore (fun _ _ => none) ⟨5, 3, 8⟩ false [] false 3 [1, 2] =
      Except.error "unknown flags value" := by
  refine ⟨(readPartialExtent_decode_checks _ _ _).1 rfl rfl,
    (readPartialExtent_decode_checks _ _ _).2.1 7 [] rfl rfl (by decide),
    (readPartialExtent_decode_checks _ _ _).2.2 (by decide) (by decide)⟩

/-- Claim C5: absent 32-bit overflow, `Flush` emits exactly the layout the
spec describes — big-endian `u32` entry count, big-endian `u32`
`data_begin = 8 +` total header-record bytes, the per-block records
(`varint lba`, flags byte, `varint size`, `varint offset`), then the body —
and the map entry for each block carries the absolute offset
`data_begin + offset`. -/
theorem flush_serialization (o : ObjectCreator) (seg : Nat)
    (hcnt : o.cnt = o.blocks.length)
    (hsz : (flushHeader o.blocks).length + 8 < 2 ^ 32)
    (hb : ∀ blk ∈ o.blocks,
      (flushHeader o.blocks).length + 8 + blk.offset < 2 ^ 32 ∧ blk.size < 2 ^ 32) :
    flushFile o = segmentLayoutSpec o.blocks o.body ∧
    ∀ blk ∈ o.blocks,
      (blk.lba,
        ObjPBA.mk seg ((flushHeader o.blocks).length + 8 + blk.offset) blk.flags blk.size) ∈
        flushEntries o seg := by
  have hdb : flushDataBegin o = (flushHeader o.blocks).length + 8 := by
    simpa [flushDataBegin] using Nat.mod_eq_of_lt hsz
  have hrec : ((o.blocks.map fun e =>
      putUvarint e.lba ++ [e.flags] ++ putUvarint e.size ++ putUvarint e.offset).flatten
        : List Nat) = flushHeader o.blocks := rfl
  constructor
  · simp only [flushFile, segmentLayoutSpec, hrec, hcnt, hdb]
    rw [Nat.add_comm (flushHeader o.blocks).length 8]
  · intro blk hblk
    obtain ⟨h1, h2⟩ := hb blk hblk
    have hoff : blk.offset < 2 ^ 32 := lt_of_le_of_lt (Nat.le_add_left _ _) h1
    have hent : flushEntries o seg = o.blocks.map fun b =>
        (b.lba,
         ObjPBA.mk seg ((flushDataBegin o + b.offset % 2 ^ 32) % 2 ^ 32) b.flags
           (b.size % 2 ^ 32)) := rfl
    rw [hent]
    refine List.mem_map.mpr ⟨blk, hblk, ?_⟩
    dsimp only
    rw [Nat.mod_eq_of_lt hoff, hdb, Nat.mod_eq_of_lt h1, Nat.mod_eq_of_lt h2]

/-- Witness for claim C5 at a concrete creator with one uncompressed block
of two body bytes: the header records are `[5, 0, 2, 0]`, so
`data_begin = 12` and the installed entry's offset is `12`. -/
theorem flush_serialization_witness :
    flushFile ⟨1, 2, [⟨5, 0, 2, 0⟩], [9, 9]⟩ = segmentLayoutSpec [⟨5, 0, 2, 0⟩] [9, 9] ∧
    (5, ObjPBA.mk 3 12 0 2) ∈ flushEntries ⟨1, 2, [⟨5, 0, 2, 0⟩], [9, 9]⟩ 3 := by
  obtain ⟨h1, h2⟩ :=
    flush_serialization ⟨1, 2, [⟨5, 0, 2, 0⟩], [9, 9]⟩ 3 rfl (by decide) (by decide)
  refine ⟨h1, ?_⟩
  have h3 := h2 ⟨5, 0, 2, 0⟩ (by decide)
  have h4 : (flushHeader [⟨5, 0, 2, 0⟩]).length + 8 + 0 = 12 := by decide
  rw [h4] at h3
  exact h3

/-- Claim C3: the background goroutine of `closeSegmentAsync` retries
`oc.Flush` with a 5-second sleep after every error and runs the install
steps (`d.s.Create`, `lba2pba.UpdateBatch`, `prevCache.Clear`) exactly once,
only after the first successful flush; no flush error ever escapes the
goroutine (its trace has no error-surfacing event, and as long as every
attempt fails it only accumulates fail/sleep pairs). -/
theorem closeSegment_flush_retry (attempts : List Bool) :
    (true ∈ attempts →
      bgTrace attempts =
        failPrefix (attempts.takeWhile Bool.not).length ++
          [BgEvent.flushOk, BgEvent.createSeg, BgEvent.updateBatch, BgEvent.clearPrev]) ∧
    (true ∉ attempts → bgTrace attempts = failPrefix attempts.length) := by
  induction attempts with
  | nil =>
    exact ⟨fun h => absurd h (List.not_mem_nil _), fun _ => rfl⟩
  | cons a rest ih =>
    cases a
    · constructor
      · intro h
        have hr : true ∈ rest := by simpa using h
        simp [bgTrace, failPrefix, ih.1 hr]
      · intro h
        have hr : true ∉ rest := fun hx => h (List.mem_cons_of_mem _ hx)
        simp [bgTrace, failPrefix, ih.2 hr]
    · constructor
      · intro _
        simp [bgTrace, failPrefix]
      · intro h
        exact absurd (List.mem_cons_self _ _) h

/-- Witness for claim C3 at a concrete attempt sequence: one failure then a
success produces fail, sleep, then the single install sequence. -/
theorem closeSegment_flush_retry_witness :
    bgTrace [false, true] =
      [BgEvent.flushFail, BgEvent.sleep5, BgEvent.flushOk, BgEvent.createSeg,
       BgEvent.updateBatch, BgEvent.clearPrev] := by
  have h := (closeSegment_flush_retry [false, true]).1 (by decide)
  simpa [failPrefix] using h

/-- Helper: one `writeBlock` step on a 4 KiB block preserves the creator
invariant. -/
theorem writeBlock_inv (compress : List Nat → Nat → List Nat) (o : ObjectCreator)
    (lba : Nat) (blk : List Nat) (hlen : blk.length = BlockSize)
    (h : creatorInv o) : creatorInv (writeBlock compress o lba blk) := by
  obtain ⟨h1, h2, h3⟩ := h
  simp only [writeBlock]
  split_ifs with he hp
  · refine ⟨by simp [h1], h2, ?_⟩
    intro b hb
    rcases List.mem_append.mp hb with hb | hb
    · exact h3 b hb
    · rcases List.mem_singleton.mp hb with rfl
      exact ⟨fun hf => absurd rfl hf, fun _ => rfl⟩
  · refine ⟨by simp [h1], by simp [h2], ?_⟩
    intro b hb
    rcases List.mem_append.mp hb with hb | hb
    · refine ⟨fun hf => ?_, (h3 b hb).2⟩
      obtain ⟨hle, hsz⟩ := (h3 b hb).1 hf
      exact ⟨le_trans hle (by simp), hsz⟩
    · rcases List.mem_singleton.mp hb with rfl
      refine ⟨fun _ => ⟨?_, le_of_lt hp.2⟩, fun hf => by simp [Compressed, Empty] at hf⟩
      simp [h2]
  · refine ⟨by simp [h1], by simp [h2], ?_⟩
    intro b hb
    rcases List.mem_append.mp hb with hb | hb
    · refine ⟨fun hf => ?_, (h3 b hb).2⟩
      obtain ⟨hle, hsz⟩ := (h3 b hb).1 hf
      exact ⟨le_trans hle (by simp), hsz⟩
    · rcases List.mem_singleton.mp hb with rfl
      refine ⟨fun _ => ⟨?_, by rw [hlen]⟩, fun hf => by simp [Uncompressed, Empty] at hf⟩
      simp [h2, hlen]

/-- Helper: `WriteExtent` preserves the creator invariant when every block
view has `BlockSize` bytes. -/
theorem writeExtent_inv (compress : List Nat → Nat → List Nat) :
    ∀ (ext : List (List Nat)) (fb : Nat) (o : ObjectCreator),
      (∀ b ∈ ext, b.length = BlockSize) → creatorInv o →
      creatorInv (WriteExtent compress o fb ext) := by
  intro ext
  induction ext with
  | nil =>
    intro fb o _ h
    exact h
  | cons blk rest ih =>
    intro fb o hb h
    exact ih (fb + 1) (writeBlock compress o fb blk)
      (fun b hb2 => hb b (List.mem_cons_of_mem _ hb2))
      (writeBlock_inv compress o fb blk (hb blk (List.mem_cons_self _ _)) h)

/-- Claim C10: in every creator state reachable by `WriteExtent` and
`Reset` calls, `cnt` equals the number of recorded blocks, `offset` equals
the body length, every non-`Empty` block's `[offset, offset+size)` range
lies within the body with `size ≤ BlockSize`, and `Empty` blocks carry
`size = 0` (contributing no body bytes). -/
theorem reach_creatorInv (o : ObjectCreator) (h : Reach o) : creatorInv o := by
  induction h with
  | init =>
    exact ⟨rfl, rfl, fun b hb => absurd hb (List.not_mem_nil _)⟩
  | write o compress fb ext hb _ ih =>
    exact writeExtent_inv compress ext fb o hb ih
  | reset o _ _ =>
    exact ⟨rfl, rfl, fun b hb => absurd hb (List.not_mem_nil _)⟩

/-- Witness for claim C10 at a concrete reachable state: one written block
whose compression yields one byte. -/
theorem reach_creatorInv_witness :
    creatorInv (WriteExtent (fun _ _ => [7]) emptyOC 0 [List.replicate BlockSize 1]) :=
  reach_creatorInv _
    (Reach.write emptyOC (fun _ _ => [7]) 0 [List.replicate BlockSize 1]
      (by simp) Reach.init)

end Lsvd
